import Mathlib

/-
Shallow embedding of the elghaly-vr color sampler / scene colorizer.
The repository holds several near-duplicate variants of one React
component (src/app/page.tsx carries two variants, src/unnamed/part_000
two more, src/unnamed/part_001 one).  Definitions below carry the name
of the variant they are translated from: `...Page` for the first
variant of src/app/page.tsx, `...000` for the second variant in
src/unnamed/part_000, `...001` for src/unnamed/part_001.
-/

namespace ElghalyVR

/-- Truncation toward zero on rationals.  This is the WebIDL `long`
coercion the browser applies to the fractional coordinates the code
passes to `getImageData` (ECMAScript ToIntegerOrInfinity: truncate
toward zero). -/
def jsTrunc (q : ℚ) : ℤ := if 0 ≤ q then ⌊q⌋ else -⌊-q⌋

/-- JavaScript `Math.round`: floor of the argument plus one half. -/
def jsRound (q : ℚ) : ℤ := ⌊q + 1/2⌋

/-- An 8-bit-per-channel color triple, as packed into the `#rrggbb`
hex string by the source's `(1 << 24) + (r << 16) + (g << 8) + b`. -/
structure RGB where
  r : Nat
  g : Nat
  b : Nat
deriving DecidableEq

/-- One entry of the canvas `ImageData.data` array: r, g, b, alpha. -/
structure RGBA where
  r : Nat
  g : Nat
  b : Nat
  a : Nat
deriving DecidableEq

/-- The external video element at sampling time: readiness flag,
native pixel size, on-screen rendered rectangle
(`getBoundingClientRect`), and the decoded frame (drawn 1:1 onto the
hidden canvas by `drawImage(video, 0, 0, videoWidth, videoHeight)`). -/
structure Video where
  readyState : Nat
  videoWidth : Nat
  videoHeight : Nat
  rectLeft : ℚ
  rectTop : ℚ
  rectWidth : ℚ
  rectHeight : ℚ
  frame : Nat → Nat → RGB

/-- Canvas `getImageData` pixel semantics: a position inside the
canvas yields the drawn frame pixel (opaque); a position outside the
canvas yields transparent black (0,0,0,0), per the HTML canvas
specification.  The frame buffer itself is only consulted at
in-bounds positions. -/
def getPixel (v : Video) (ix iy : ℤ) : RGBA :=
  if 0 ≤ ix ∧ ix < (v.videoWidth : ℤ) ∧ 0 ≤ iy ∧ iy < (v.videoHeight : ℤ) then
    ⟨(v.frame ix.toNat iy.toNat).r, (v.frame ix.toNat iy.toNat).g,
      (v.frame ix.toNat iy.toNat).b, 255⟩
  else ⟨0, 0, 0, 0⟩

/-- The screen-to-image coordinate map every `pickColor` variant
computes: `(clientX - rect.left) * (video.videoWidth / rect.width)`
(same for y).  The result is an exact rational, not yet an integer. -/
def mapCoord (client offset : ℚ) (native : Nat) (rectSize : ℚ) : ℚ :=
  (client - offset) * ((native : ℚ) / rectSize)

/-- The two UI modes of `MobileColorPicker`: "camera" (the spec's
capture state) and "vr" (the spec's preview state). -/
inductive Mode where
  | camera
  | vr
deriving DecidableEq

/-- The React state of `MobileColorPicker` in src/app/page.tsx
(first variant): `color`, `mode`, `isCaptured`. -/
structure AppState where
  color : RGB
  mode : Mode
  isCaptured : Bool
deriving DecidableEq

/-- `pickColor` from src/app/page.tsx (first variant): if the video
is not ready (`readyState !== 4`) it returns without touching state;
otherwise it maps the tap to image coordinates, reads one pixel via
`getImageData(x, y, 1, 1)` (the fractional x, y are coerced by
truncation toward zero), stores the color and sets `isCaptured`.
The DOM-ref and 2d-context null guards of the source, which also
return without a state change, are modelled as the refs being
present. -/
def pickColorPage (v : Video) (clientX clientY : ℚ) (s : AppState) : AppState :=
  if v.readyState = 4 then
    let x := mapCoord clientX v.rectLeft v.videoWidth v.rectWidth
    let y := mapCoord clientY v.rectTop v.videoHeight v.rectHeight
    let px := getPixel v (jsTrunc x) (jsTrunc y)
    { s with color := ⟨px.r, px.g, px.b⟩, isCaptured := true }
  else s

/-- The React state of `MobileColorPicker` in src/unnamed/part_001,
which additionally tracks the tap position for the marker overlay. -/
structure AppState001 where
  color : RGB
  mode : Mode
  isCaptured : Bool
  tapX : ℚ
  tapY : ℚ
deriving DecidableEq

/-- The 25 `ImageData` entries returned by
`getImageData(sx, sy, 5, 5)`, row-major (y outer, x inner), with
transparent-black padding outside the canvas. -/
def window25 (v : Video) (sx sy : ℤ) : List RGBA :=
  (List.range 5).flatMap fun j =>
    (List.range 5).map fun i => getPixel v (sx + (i : ℤ)) (sy + (j : ℤ))

/-- The 5x5 averaging step of `pickColor` in src/unnamed/part_001:
sum each channel over the full returned window, divide by
`imgData.length / 4` (always 25), `Math.round` the quotient. -/
def sample5 (v : Video) (sx sy : ℤ) : RGB :=
  let px := window25 v sx sy
  let count : ℚ := (px.length : ℚ)
  let rs : ℚ := (px.map fun p => (p.r : ℚ)).sum
  let gs : ℚ := (px.map fun p => (p.g : ℚ)).sum
  let bs : ℚ := (px.map fun p => (p.b : ℚ)).sum
  ⟨(jsRound (rs / count)).toNat, (jsRound (gs / count)).toNat,
    (jsRound (bs / count)).toNat⟩

/-- `pickColor` from src/unnamed/part_001: readiness guard, tap
position recorded, coordinate map, then a 5x5 neighborhood average
taken from `getImageData(x - 2, y - 2, 5, 5)`. -/
def pickColor001 (v : Video) (clientX clientY : ℚ) (s : AppState001) : AppState001 :=
  if v.readyState = 4 then
    let x := mapCoord clientX v.rectLeft v.videoWidth v.rectWidth
    let y := mapCoord clientY v.rectTop v.videoHeight v.rectHeight
    let c := sample5 v (jsTrunc (x - 2)) (jsTrunc (y - 2))
    { s with color := c, isCaptured := true, tapX := clientX, tapY := clientY }
  else s

/-- Modelled from the spec (testable property "Edge clamp" and
section 4.1): the 5x5 neighborhood average as the spec describes it,
the per-channel arithmetic mean over only the valid in-bounds pixels
of the window centered at (cx, cy).  Written to be compared against
`sample5`, which is what the code computes. -/
def clampedMean5 (v : Video) (cx cy : ℤ) : RGB :=
  let pts := ((List.range 5).flatMap fun j =>
    (List.range 5).map fun i => (cx - 2 + (i : ℤ), cy - 2 + (j : ℤ))).filter
      fun p => decide (0 ≤ p.1 ∧ p.1 < (v.videoWidth : ℤ) ∧ 0 ≤ p.2 ∧ p.2 < (v.videoHeight : ℤ))
  let px := pts.map fun p => v.frame p.1.toNat p.2.toNat
  let count : ℚ := (px.length : ℚ)
  ⟨(jsRound (((px.map fun p => (p.r : ℚ)).sum) / count)).toNat,
    (jsRound (((px.map fun p => (p.g : ℚ)).sum) / count)).toNat,
    (jsRound (((px.map fun p => (p.b : ℚ)).sum) / count)).toNat⟩

/-- JavaScript `String.prototype.toLowerCase`, modelled character by
character. -/
def jsToLower (s : String) : String := ⟨s.data.map Char.toLower⟩

/-- Does the second character list start with the first one? -/
def charsStart : List Char → List Char → Bool
  | [], _ => true
  | _ :: _, [] => false
  | a :: as, b :: bs => a == b && charsStart as bs

/-- Does the second character list contain the first as a contiguous
run? -/
def charsHas (pat : List Char) : List Char → Bool
  | [] => charsStart pat []
  | c :: rest => charsStart pat (c :: rest) || charsHas pat rest

/-- JavaScript `String.prototype.includes` (substring test). -/
def strHas (s pat : String) : Bool := charsHas pat.data s.data

/-- A mesh node of the loaded room model, as far as the classifiers
read it: name, vertical position, vertical scale, and the identity of
the material object it currently references (reference equality of
materials is modelled by equality of these identifiers). -/
structure MeshNode where
  name : String
  posY : ℚ
  scaleY : ℚ
  matId : Nat
deriving DecidableEq

/-- The exclusion test of the `Scene` traversal in src/unnamed
part_000 (second variant), lines 270-280: name-substring matches for
floor/ground, the furniture vocabulary, and ceiling/roof.  A node is
painted there exactly when this is false. -/
def isExcluded000 (nm : String) : Bool :=
  let n := jsToLower nm
  let isFloor := strHas n ("floor") || strHas n ("ground")
  let isFurniture := strHas n ("sofa") || strHas n ("couch") || strHas n ("plant") ||
    strHas n ("lamp") || strHas n ("shelf") || strHas n ("cushion") || strHas n ("frame")
  let isCeiling := strHas n ("ceiling") || strHas n ("roof")
  isFloor || isFurniture || isCeiling

/-- The paintable test of the `Scene` traversal in src/app/page.tsx
(first variant), lines 53-64: floor by name or by the geometric
heuristic `position.y <= minY + 0.05`, props by the four furniture
names; everything else is paintable.  There is no ceiling/roof rule
here. -/
def isPaintPage (minY : ℚ) (m : MeshNode) : Bool :=
  let n := jsToLower m.name
  let isFloor := strHas n ("floor") || decide (m.posY ≤ minY + 0.05)
  let isProp := strHas n ("sofa") || strHas n ("couch") || strHas n ("plant") || strHas n ("lamp")
  !isFloor && !isProp

/-- The material-installation side of the part_000 (second variant)
traversal: every non-excluded node gets `obj.material = wallMaterial`,
the single shared `useMemo` material whose identity is `wallMatId`.
Excluded nodes are left untouched. -/
def install000 (wallMatId : Nat) (ms : List MeshNode) : List MeshNode :=
  ms.map fun m => if isExcluded000 m.name then m else { m with matId := wallMatId }

/-- The material-installation side of the page.tsx (first variant)
traversal: every paintable node gets `obj.material = oldMat.clone()`.
`clone()` allocates a brand-new material object, modelled by handing
each traversal position a fresh identifier `base + position`;
excluded nodes keep their original material reference. -/
def installPage (minY : ℚ) (base : Nat) : List MeshNode → List MeshNode
  | [] => []
  | m :: ms =>
    (if isPaintPage minY m then { m with matId := base } else m) :: installPage minY (base + 1) ms

/-- A three.js `Color` as the colorizers use it.  The numeric
sRGB-to-linear transform (`convertSRGBToLinear`) is implemented by
the external three.js library; what the repository's code controls is
whether and how often that transform is applied to the channels it
stores, so the model keeps the display-space channels read from the
hex string together with the number of times the external transform
has been applied to them (`conv`). -/
structure TColor where
  conv : Nat
  r : ℚ
  g : ℚ
  b : ℚ
deriving DecidableEq

/-- `new THREE.Color(hex)` / `color.set(hex)`: the three 8-bit
channels of the hex string as 0..1 fractions, no transform applied. -/
def setFromHex (c : RGB) : TColor := ⟨0, (c.r : ℚ) / 255, (c.g : ℚ) / 255, (c.b : ℚ) / 255⟩

/-- `Color.convertSRGBToLinear()`: one application of the external
sRGB-to-linear transform to the stored channels. -/
def convertSRGBToLinear (c : TColor) : TColor := { c with conv := c.conv + 1 }

/-- A `MeshStandardMaterial` as far as the colorizers touch it. -/
structure PMaterial where
  color : TColor
  roughness : ℚ
  metalness : ℚ
  needsUpdate : Bool
deriving DecidableEq

/-- The color-update effect of `Scene` in src/app/page.tsx (first
variant), lines 79-83: for every cached wall mesh,
`material.color.set(wallColor)` -- the raw display-space hex value,
no sRGB-to-linear conversion. -/
def applyPageV1 (c : RGB) (mats : List PMaterial) : List PMaterial :=
  mats.map fun m => { m with color := setFromHex c }

/-- The color-update effect of `Scene` in src/unnamed/part_001,
lines 77-88: build `colorObj` from the hex once, then for every
cached wall `mat.color.copy(colorObj); mat.color.convertSRGBToLinear();
mat.needsUpdate = true`. -/
def apply001 (c : RGB) (mats : List PMaterial) : List PMaterial :=
  let colorObj := setFromHex c
  mats.map fun m => { m with color := convertSRGBToLinear colorObj, needsUpdate := true }

/-- The color-update effect of `Scene` in src/unnamed/part_000
(second variant), lines 289-292:
`wallMaterial.color.set(wallColor).convertSRGBToLinear()` on the one
shared wall material. -/
def apply000 (c : RGB) (wallMat : PMaterial) : PMaterial :=
  { wallMat with color := convertSRGBToLinear (setFromHex c) }

/-- The scene-side state the `Scene` component owns after its
load-time scan: geometry, the cached paintable classification, and
the installed wall materials.  The color-update effects only ever
touch `wallMats`. -/
structure SceneST where
  geomIds : List Nat
  wallsIdx : List Nat
  wallMats : List PMaterial
deriving DecidableEq

/-- The part_001 color-update effect acting on the whole scene
state. -/
def colorize001 (c : RGB) (s : SceneST) : SceneST :=
  { s with wallMats := apply001 c s.wallMats }

/-- The page.tsx (first variant) color-update effect acting on the
whole scene state. -/
def colorizePage (c : RGB) (s : SceneST) : SceneST :=
  { s with wallMats := applyPageV1 c s.wallMats }

/-- A store mapping material identities to their color channel;
assigning to one material's `.color` updates exactly its slot. -/
def setMat (store : Nat → TColor) (i : Nat) (c : TColor) : Nat → TColor :=
  fun j => if j = i then c else store j

/-- A 3D point. -/
structure Vec3 where
  x : ℚ
  y : ℚ
  z : ℚ
deriving DecidableEq

/-- A camera pose: eye position and orbit-controls look-at target. -/
structure CamPose where
  position : Vec3
  target : Vec3
deriving DecidableEq

/-- `CameraManager` from src/unnamed/part_000 (second variant),
lines 236-250: `camera.position.set(center.x, 1.6, center.z + 1)`,
`controls.target.set(center.x, 1.4, center.z)`, from the scene
bounding-box center. -/
def cameraManager000 (center : Vec3) : CamPose :=
  ⟨⟨center.x, 1.6, center.z + 1⟩, ⟨center.x, 1.4, center.z⟩⟩

/-- `CameraManager` from src/app/page.tsx (first variant), lines
23-39: `camera.position.set(center.x, 1.6, center.z)`,
`controls.target.set(center.x, 1.6, center.z - 0.1)`. -/
def cameraManagerPage (center : Vec3) : CamPose :=
  ⟨⟨center.x, 1.6, center.z⟩, ⟨center.x, 1.6, center.z - 0.1⟩⟩

/-- The render-time inputs of the VR view: the identities of the
scene, camera and controls objects, and the current wall color. -/
structure VRProps where
  sceneId : Nat
  cameraId : Nat
  controlsId : Nat
  wallColor : RGB
deriving DecidableEq

/-- The dependency array of the `CameraManager` effect:
`[scene, camera, controls]`.  The wall color is not a dependency. -/
def camDeps (p : VRProps) : Nat × Nat × Nat := (p.sceneId, p.cameraId, p.controlsId)

/-- React `useEffect` re-run rule: after the mount run, the effect
runs again on a render exactly when its dependency array changed. -/
def cameraEffectRuns (prev cur : VRProps) : Bool := decide (camDeps prev ≠ camDeps cur)

/-- The user events `MobileColorPicker` (page.tsx first variant)
reacts to.  A tap reaches `pickColor` only while the webcam view is
rendered (camera mode); the VIEW VR button is rendered only in camera
mode when `isCaptured` holds; the BACK button only exists in vr
mode. -/
inductive Event where
  | tap (v : Video) (clientX clientY : ℚ)
  | viewVR
  | back

/-- Initial React state of the page.tsx component:
`useState("#ffffff")`, `useState("camera")`, `useState(false)`. -/
def initState : AppState := ⟨⟨255, 255, 255⟩, Mode.camera, false⟩

/-- Initial React state of the part_001 component. -/
def init001 : AppState001 := ⟨⟨255, 255, 255⟩, Mode.camera, false, 0, 0⟩

/-- One step of the page.tsx component's state machine. -/
def stepApp (s : AppState) : Event → AppState
  | Event.tap v cx cy => if s.mode = Mode.camera then pickColorPage v cx cy s else s
  | Event.viewVR =>
    if s.mode = Mode.camera ∧ s.isCaptured = true then { s with mode := Mode.vr } else s
  | Event.back => if s.mode = Mode.vr then { s with mode := Mode.camera } else s

/-- The states the component can actually be in: everything the event
relation generates from the initial state. -/
inductive Reachable : AppState → Prop where
  | init : Reachable initState
  | next : ∀ (s : AppState) (e : Event), Reachable s → Reachable (stepApp s e)

/-- A ready 1920x1080 video displayed in a 390x844 rectangle at the
viewport origin, whose frame encodes the pixel coordinates in the
red and green channels. -/
def vid1 : Video :=
  ⟨4, 1920, 1080, 0, 0, 390, 844, fun x y => ⟨x % 256, y % 256, 0⟩⟩

/-- A ready 10x10 video displayed 1:1 whose every pixel is
(10, 20, 30). -/
def vid2 : Video :=
  ⟨4, 10, 10, 0, 0, 10, 10, fun _ _ => ⟨10, 20, 30⟩⟩

/-- A video whose stream has not yet delivered a frame
(readyState 0 = HAVE_NOTHING). -/
def vidNotReady : Video :=
  ⟨0, 1920, 1080, 0, 0, 390, 844, fun _ _ => ⟨0, 0, 0⟩⟩

/-- The four-node room model of the spec's end-to-end scenario, with
original material identities 1-4, the floor at the bounding-box
bottom and the ceiling well above it. -/
def wallNorth : MeshNode := ⟨"Wall_North", 1.5, 1, 1⟩

def floorMain : MeshNode := ⟨"Floor_Main", 0, 1, 2⟩

def sofa01 : MeshNode := ⟨"Sofa_01", 0.4, 1, 3⟩

def ceilingNode : MeshNode := ⟨"Ceiling", 3, 1, 4⟩

def scene4 : List MeshNode := [wallNorth, floorMain, sofa01, ceilingNode]

/-- Two distinct wall nodes with distinct original materials. -/
def wallSouth : MeshNode := ⟨"Wall_South", 1.5, 1, 2⟩

def twoWalls : List MeshNode := [wallNorth, wallSouth]

/-- A wall material before any color application. -/
def demoMat : PMaterial := ⟨⟨0, 1, 1, 1⟩, 0.45, 0.02, false⟩

theorem jsTrunc_eq_of_nonneg {q : ℚ} {n : ℤ} (h0 : 0 ≤ q) (h1 : (n : ℚ) ≤ q)
    (h2 : q < (n : ℚ) + 1) : jsTrunc q = n := by
  rw [jsTrunc, if_pos h0, Int.floor_eq_iff]
  exact ⟨h1, by exact_mod_cast h2⟩

theorem jsTrunc_eq_of_neg {q : ℚ} {n : ℤ} (h0 : ¬ 0 ≤ q) (h1 : (n : ℚ) ≤ -q)
    (h2 : -q < (n : ℚ) + 1) : jsTrunc q = -n := by
  rw [jsTrunc, if_neg h0]
  have h : ⌊-q⌋ = n := by
    rw [Int.floor_eq_iff]
    exact ⟨h1, by exact_mod_cast h2⟩
  rw [h]

theorem jsRound_eq {q : ℚ} {n : ℤ} (h1 : (n : ℚ) ≤ q + 1/2)
    (h2 : q + 1/2 < (n : ℚ) + 1) : jsRound q = n := by
  rw [jsRound, Int.floor_eq_iff]
  exact ⟨h1, by exact_mod_cast h2⟩

theorem pickColorPage_mode (v : Video) (cx cy : ℚ) (s : AppState) :
    (pickColorPage v cx cy s).mode = s.mode := by
  rw [pickColorPage]
  split <;> rfl

theorem pickColorPage_captured_mono (v : Video) (cx cy : ℚ) (s : AppState)
    (h : s.isCaptured = true) : (pickColorPage v cx cy s).isCaptured = true := by
  rw [pickColorPage]
  split
  · rfl
  · exact h

/-- C1: the claim says the sampler maps the tap to
`round((screenX - viewportLeft) * frameWidth / viewportWidth)`.  On
the 1920-wide frame shown 390 wide, a tap at screen x = 1 lands at
exact image abscissa 64/13 = 4.92...; the claimed rounding gives
column 5, but `pickColor` hands the raw float to `getImageData`,
which truncates, so the sampler reads column 4. -/
theorem c1_counterexample :
    (pickColorPage vid1 1 422 initState).color.r = 4
    ∧ jsRound (mapCoord 1 0 1920 390) = 5
    ∧ (4 : Nat) ≠ 5 := by
  refine ⟨?_, ?_, by decide⟩
  · have hx : jsTrunc (mapCoord 1 vid1.rectLeft vid1.videoWidth vid1.rectWidth) = 4 := by
      apply jsTrunc_eq_of_nonneg <;> norm_num [mapCoord, vid1]
    have hy : jsTrunc (mapCoord 422 vid1.rectTop vid1.videoHeight vid1.rectHeight) = 540 := by
      apply jsTrunc_eq_of_nonneg <;> norm_num [mapCoord, vid1]
    rw [pickColorPage, if_pos (by rfl)]
    simp only [hx, hy]
    simp [getPixel, vid1]
  · apply jsRound_eq <;> norm_num [mapCoord]

/-- C1 (amended): the sampler reads the buffer at the truncation
toward zero of the exact rational `(screen - viewportOrigin) * scale`
(not at its rounding), and the concrete 1920x1080 / 390x844 center
tap at (195, 422) still maps exactly to image coordinate (960, 540). -/
theorem c1_amended :
    (∀ (v : Video) (cx cy : ℚ) (s : AppState), v.readyState = 4 →
      (pickColorPage v cx cy s).color =
        ⟨(getPixel v (jsTrunc (mapCoord cx v.rectLeft v.videoWidth v.rectWidth))
            (jsTrunc (mapCoord cy v.rectTop v.videoHeight v.rectHeight))).r,
          (getPixel v (jsTrunc (mapCoord cx v.rectLeft v.videoWidth v.rectWidth))
            (jsTrunc (mapCoord cy v.rectTop v.videoHeight v.rectHeight))).g,
          (getPixel v (jsTrunc (mapCoord cx v.rectLeft v.videoWidth v.rectWidth))
            (jsTrunc (mapCoord cy v.rectTop v.videoHeight v.rectHeight))).b⟩)
    ∧ jsTrunc (mapCoord 195 0 1920 390) = 960
    ∧ jsTrunc (mapCoord 422 0 1080 844) = 540 := by
  refine ⟨?_, ?_, ?_⟩
  · intro v cx cy s h
    rw [pickColorPage, if_pos h]
  · apply jsTrunc_eq_of_nonneg <;> norm_num [mapCoord]
  · apply jsTrunc_eq_of_nonneg <;> norm_num [mapCoord]

/-- C1 witness: the amended theorem applied to the ready video
`vid1` at the viewport center; the sampled color is the frame pixel
at (960, 540), which encodes those coordinates mod 256. -/
theorem c1_witness : (pickColorPage vid1 195 422 initState).color = ⟨192, 28, 0⟩ := by
  have h := c1_amended.1 vid1 195 422 initState rfl
  rw [h]
  have hx : jsTrunc (mapCoord 195 vid1.rectLeft vid1.videoWidth vid1.rectWidth) = 960 := by
    apply jsTrunc_eq_of_nonneg <;> norm_num [mapCoord, vid1]
  have hy : jsTrunc (mapCoord 422 vid1.rectTop vid1.videoHeight vid1.rectHeight) = 540 := by
    apply jsTrunc_eq_of_nonneg <;> norm_num [mapCoord, vid1]
  rw [hx, hy]
  simp [getPixel, vid1]

/-- C4: the claim says every assignment of the sampled color to a
paintable material converts it to linear light space first.  The
colorizer of src/app/page.tsx (first variant) stores the raw
display-space value: the stored channels have had the external
sRGB-to-linear transform applied zero times, not once. -/
theorem c4_counterexample :
    ((applyPageV1 ⟨51, 102, 153⟩ [demoMat]).map fun m => m.color.conv) = [0]
    ∧ (0 : Nat) ≠ 1 := by
  exact ⟨rfl, by decide⟩

/-- C4 (amended): the part_001 and part_000 colorizers store, for
every paintable material, exactly the hex channels with the
sRGB-to-linear transform applied once before assignment; the
page.tsx first-variant colorizer (see the counterexample) skips the
conversion. -/
theorem c4_amended :
    (∀ (c : RGB) (mats : List PMaterial),
      (apply001 c mats).map (fun m => m.color) =
        mats.map fun _ => convertSRGBToLinear (setFromHex c))
    ∧ (∀ c : RGB, (convertSRGBToLinear (setFromHex c)).conv = 1)
    ∧ (∀ (c : RGB) (m : PMaterial), (apply000 c m).color = convertSRGBToLinear (setFromHex c)) := by
  refine ⟨?_, fun c => rfl, fun c m => rfl⟩
  intro c mats
  simp only [apply001]
  rw [List.map_map]
  rfl

/-- C6: the claim requires the look-at target to sit at
`(centerX, targetHeight, centerZ)` with targetHeight about 1.4 and
strictly below the 1.6 eye height.  The `CameraManager` of
src/app/page.tsx (first variant) instead targets
`(centerX, 1.6, centerZ - 0.1)`: the target height equals the eye
height and the target z is biased off center. -/
theorem c6_counterexample :
    (cameraManagerPage ⟨0, 0, 0⟩).target.y = 1.6
    ∧ (cameraManagerPage ⟨0, 0, 0⟩).target.y ≠ 1.4
    ∧ ¬ (cameraManagerPage ⟨0, 0, 0⟩).target.y < (cameraManagerPage ⟨0, 0, 0⟩).position.y
    ∧ (cameraManagerPage ⟨0, 0, 0⟩).target.z ≠ 0 := by
  norm_num [cameraManagerPage]

/-- C6 (amended): the part_000 `CameraManager` places the eye at
`(centerX, 1.6, centerZ + 1)` with forward offset 1 in [0, 1] and the
target at `(centerX, 1.4, centerZ)`, strictly below eye height; its
effect has dependency array [scene, camera, controls], so it does not
re-run when only the wall color changes nor on a render with
unchanged props.  The page.tsx variant (see the counterexample) puts
the target at eye height, off center. -/
theorem c6_amended :
    (∀ center : Vec3,
      (cameraManager000 center).position.x = center.x
      ∧ (cameraManager000 center).position.y = 1.6
      ∧ 0 ≤ (cameraManager000 center).position.z - center.z
      ∧ (cameraManager000 center).position.z - center.z ≤ 1
      ∧ (cameraManager000 center).target.x = center.x
      ∧ (cameraManager000 center).target.y = 1.4
      ∧ (cameraManager000 center).target.z = center.z
      ∧ (cameraManager000 center).target.y < (cameraManager000 center).position.y)
    ∧ (∀ (p : VRProps) (c : RGB), cameraEffectRuns p { p with wallColor := c } = false)
    ∧ (∀ p : VRProps, cameraEffectRuns p p = false) := by
  refine ⟨?_, ?_, ?_⟩
  · intro center
    refine ⟨rfl, rfl, by norm_num [cameraManager000], by norm_num [cameraManager000],
      rfl, rfl, rfl, by norm_num [cameraManager000]⟩
  · intro p c
    exact decide_eq_false fun h => h rfl
  · intro p
    exact decide_eq_false fun h => h rfl

/-- C7: applying the same color twice through either colorizer
leaves exactly the same final material state as applying it once,
and neither application touches the geometry or the cached
paintable classification. -/
theorem c7_idempotent :
    ∀ (c : RGB) (s : SceneST),
      colorize001 c (colorize001 c s) = colorize001 c s
      ∧ colorizePage c (colorizePage c s) = colorizePage c s
      ∧ (colorize001 c s).geomIds = s.geomIds
      ∧ (colorize001 c s).wallsIdx = s.wallsIdx
      ∧ (colorizePage c s).geomIds = s.geomIds
      ∧ (colorizePage c s).wallsIdx = s.wallsIdx := by
  intro c s
  have h001 : ∀ l : List PMaterial, apply001 c (apply001 c l) = apply001 c l := by
    intro l
    induction l with
    | nil => rfl
    | cons m t ih =>
      simp only [apply001, List.map_cons] at ih ⊢
      rw [ih]
  have hpage : ∀ l : List PMaterial, applyPageV1 c (applyPageV1 c l) = applyPageV1 c l := by
    intro l
    induction l with
    | nil => rfl
    | cons m t ih =>
      simp only [applyPageV1, List.map_cons] at ih ⊢
      rw [ih]
  refine ⟨?_, ?_, rfl, rfl, rfl, rfl⟩
  · show SceneST.mk s.geomIds s.wallsIdx (apply001 c (apply001 c s.wallMats))
      = SceneST.mk s.geomIds s.wallsIdx (apply001 c s.wallMats)
    rw [h001]
  · show SceneST.mk s.geomIds s.wallsIdx (applyPageV1 c (applyPageV1 c s.wallMats))
      = SceneST.mk s.geomIds s.wallsIdx (applyPageV1 c s.wallMats)
    rw [hpage]

/-- C8: when the video stream has not yet delivered a decoded frame
(readyState below HAVE_CURRENT_DATA = 2, hence not the required 4),
`pickColor` is a silent no-op: it returns the state unchanged --
same color, same has-captured flag, same mode -- and, being a total
function, throws nothing. -/
theorem c8_not_ready_noop :
    ∀ (v : Video) (cx cy : ℚ) (s : AppState), v.readyState < 2 →
      pickColorPage v cx cy s = s
      ∧ (pickColorPage v cx cy s).color = s.color
      ∧ (pickColorPage v cx cy s).isCaptured = s.isCaptured
      ∧ (pickColorPage v cx cy s).mode = s.mode := by
  intro v cx cy s h
  have he : pickColorPage v cx cy s = s := by
    rw [pickColorPage, if_neg (by omega)]
  exact ⟨he, by rw [he], by rw [he], by rw [he]⟩

/-- C8 witness: the theorem applied to a stream still at
readyState 0 (HAVE_NOTHING). -/
theorem c8_witness : pickColorPage vidNotReady 100 200 initState = initState :=
  (c8_not_ready_noop vidNotReady 100 200 initState (by norm_num [vidNotReady])).1

/-- C9: the component has the two modes camera (capture) and vr
(preview); the capture-to-preview transition is a no-op unless the
has-captured guard holds, preview-to-capture always lands back in
camera mode, and every reachable state in vr mode has the
has-captured flag set. -/
theorem c9_state_machine :
    (∀ s : AppState, Reachable s → s.mode = Mode.vr → s.isCaptured = true)
    ∧ (∀ s : AppState, s.isCaptured = false → stepApp s Event.viewVR = s)
    ∧ (∀ s : AppState, s.mode = Mode.vr → (stepApp s Event.back).mode = Mode.camera) := by
  refine ⟨?_, ?_, ?_⟩
  · intro s hs
    induction hs with
    | init => intro h; simp [initState] at h
    | next s e hr ih =>
      cases e with
      | tap v cx cy =>
        intro h
        simp only [stepApp] at h ⊢
        by_cases hm : s.mode = Mode.camera
        · rw [if_pos hm] at h
          rw [pickColorPage_mode, hm] at h
          cases h
        · rw [if_neg hm] at h ⊢
          exact ih h
      | viewVR =>
        intro h
        simp only [stepApp] at h ⊢
        by_cases hg : s.mode = Mode.camera ∧ s.isCaptured = true
        · rw [if_pos hg] at h ⊢
          exact hg.2
        · rw [if_neg hg] at h ⊢
          exact ih h
      | back =>
        intro h
        simp only [stepApp] at h ⊢
        by_cases hm : s.mode = Mode.vr
        · rw [if_pos hm] at h ⊢
          cases h
        · rw [if_neg hm] at h ⊢
          exact ih h
  · intro s h
    rw [stepApp, if_neg (by simp [h])]
  · intro s h
    rw [stepApp, if_pos h]

/-- C9 witness: the invariant applied to the concrete reachable
state obtained by tapping the ready video and then pressing VIEW
VR. -/
theorem c9_witness :
    (stepApp (stepApp initState (Event.tap vid1 195 422)) Event.viewVR).isCaptured = true :=
  c9_state_machine.1 _
    (Reachable.next _ Event.viewVR (Reachable.next _ (Event.tap vid1 195 422) Reachable.init))
    rfl

/-- C10: the two mode transitions change only the mode field: the
retake (back) transition and the VIEW-VR transition both preserve
the sampled color and the has-captured flag, re-entering the preview
after a retake shows the color sampled before, and no event ever
resets the has-captured flag once it is set. -/
theorem c10_mode_transitions_frame :
    ∀ s : AppState,
      (stepApp s Event.viewVR).color = s.color
      ∧ (stepApp s Event.viewVR).isCaptured = s.isCaptured
      ∧ (stepApp s Event.back).color = s.color
      ∧ (stepApp s Event.back).isCaptured = s.isCaptured
      ∧ (stepApp (stepApp s Event.back) Event.viewVR).color = s.color
      ∧ (∀ e : Event, s.isCaptured = true → (stepApp s e).isCaptured = true) := by
  intro s
  have hv : ∀ t : AppState,
      (stepApp t Event.viewVR).color = t.color
      ∧ (stepApp t Event.viewVR).isCaptured = t.isCaptured := by
    intro t
    simp only [stepApp]
    split <;> exact ⟨rfl, rfl⟩
  have hb : ∀ t : AppState,
      (stepApp t Event.back).color = t.color
      ∧ (stepApp t Event.back).isCaptured = t.isCaptured := by
    intro t
    simp only [stepApp]
    split <;> exact ⟨rfl, rfl⟩
  refine ⟨(hv s).1, (hv s).2, (hb s).1, (hb s).2, ?_, ?_⟩
  · rw [(hv _).1, (hb _).1]
  · intro e h
    cases e with
    | tap v cx cy =>
      simp only [stepApp]
      split
      · exact pickColorPage_captured_mono _ _ _ _ h
      · exact h
    | viewVR => rw [(hv s).2]; exact h
    | back => rw [(hb s).2]; exact h

/-- C10 witness: the frame conditions applied at a concrete captured
preview state. -/
theorem c10_witness :
    (stepApp (⟨⟨1, 2, 3⟩, Mode.vr, true⟩ : AppState) Event.back).color = ⟨1, 2, 3⟩
    ∧ (stepApp (⟨⟨1, 2, 3⟩, Mode.vr, true⟩ : AppState) Event.viewVR).isCaptured = true :=
  ⟨(c10_mode_transitions_frame _).2.2.1,
    (c10_mode_transitions_frame _).2.2.2.2.2 Event.viewVR rfl⟩

theorem getPixel_frame_congr (v : Video) (g : Nat → Nat → RGB) (ix iy : ℤ)
    (h : ∀ x y, x < v.videoWidth → y < v.videoHeight → v.frame x y = g x y) :
    getPixel v ix iy = getPixel { v with frame := g } ix iy := by
  simp only [getPixel]
  by_cases hc : 0 ≤ ix ∧ ix < (v.videoWidth : ℤ) ∧ 0 ≤ iy ∧ iy < (v.videoHeight : ℤ)
  · rw [if_pos hc, if_pos hc]
    have hx : ix.toNat < v.videoWidth := by omega
    have hy : iy.toNat < v.videoHeight := by omega
    rw [h ix.toNat iy.toNat hx hy]
  · rw [if_neg hc, if_neg hc]

theorem window25_frame_congr (v : Video) (g : Nat → Nat → RGB) (sx sy : ℤ)
    (h : ∀ x y, x < v.videoWidth → y < v.videoHeight → v.frame x y = g x y) :
    window25 v sx sy = window25 { v with frame := g } sx sy := by
  simp only [window25]
  congr 1
  funext j
  congr 1
  funext i
  exact getPixel_frame_congr v g _ _ h

theorem window25_length (v : Video) (sx sy : ℤ) : (window25 v sx sy).length = 25 := rfl

theorem mem_window25_le (v : Video)
    (hf : ∀ x y, (v.frame x y).r ≤ 255 ∧ (v.frame x y).g ≤ 255 ∧ (v.frame x y).b ≤ 255)
    (sx sy : ℤ) : ∀ p ∈ window25 v sx sy, p.r ≤ 255 ∧ p.g ≤ 255 ∧ p.b ≤ 255 := by
  intro p hp
  simp only [window25, List.mem_flatMap, List.mem_map] at hp
  obtain ⟨j, hj, i, hi, rfl⟩ := hp
  simp only [getPixel]
  split
  · exact ⟨(hf _ _).1, (hf _ _).2.1, (hf _ _).2.2⟩
  · simp

theorem jsRound_le_255 {q : ℚ} (h : q ≤ 255) : jsRound q ≤ 255 := by
  rw [jsRound]
  have h1 : (⌊q + 1/2⌋ : ℤ) ≤ ⌊(255 : ℚ) + 1/2⌋ := Int.floor_le_floor (by linarith)
  have h2 : ⌊(255 : ℚ) + 1/2⌋ = 255 := by
    rw [Int.floor_eq_iff]
    norm_num
  omega

theorem channel_le (l : List RGBA) (hl : l.length = 25) (f : RGBA → Nat)
    (h : ∀ p ∈ l, f p ≤ 255) :
    (jsRound (((l.map fun p => ((f p : ℚ))).sum) / ((l.length : ℚ)))).toNat ≤ 255 := by
  have hsum : ((l.map fun p => ((f p : ℚ))).sum) ≤ 6375 := by
    have h1 := List.sum_le_card_nsmul (l.map fun p => ((f p : ℚ))) 255 ?_
    · rw [List.length_map, hl] at h1
      have h2 : (25 : ℕ) • (255 : ℚ) = 6375 := by norm_num
      rw [h2] at h1
      exact h1
    · intro x hx
      obtain ⟨p, hp, rfl⟩ := List.mem_map.mp hx
      exact_mod_cast h p hp
  have hq : ((l.map fun p => ((f p : ℚ))).sum) / ((l.length : ℚ)) ≤ 255 := by
    rw [hl]
    push_cast
    linarith
  have h3 := jsRound_le_255 hq
  omega

/-- C2: the claim says the 5x5 window at the top-left corner is
clamped so that the mean is taken over only the in-bounds pixels.
On the all-(10,20,30) buffer `vid2`, that clamped mean (the second
conjunct, computed by the spec-modelled `clampedMean5`) is
(10, 20, 30) -- but the code's `getImageData(x-2, y-2, 5, 5)` pads
the 16 out-of-canvas positions with transparent black and divides by
25, so `pickColor` stores (4, 7, 11). -/
theorem c2_counterexample :
    (pickColor001 vid2 0 0 init001).color = ⟨4, 7, 11⟩
    ∧ clampedMean5 vid2 0 0 = ⟨10, 20, 30⟩
    ∧ (RGB.mk 4 7 11 ≠ RGB.mk 10 20 30) := by
  refine ⟨?_, ?_, by decide⟩
  · have hsx : jsTrunc (mapCoord 0 vid2.rectLeft vid2.videoWidth vid2.rectWidth - 2) = -2 := by
      apply jsTrunc_eq_of_neg <;> norm_num [mapCoord, vid2]
    have hsy : jsTrunc (mapCoord 0 vid2.rectTop vid2.videoHeight vid2.rectHeight - 2) = -2 := by
      apply jsTrunc_eq_of_neg <;> norm_num [mapCoord, vid2]
    have hr : jsRound ((18 : ℚ) / 5) = 4 := by apply jsRound_eq <;> norm_num
    have hg : jsRound ((36 : ℚ) / 5) = 7 := by apply jsRound_eq <;> norm_num
    have hb : jsRound ((54 : ℚ) / 5) = 11 := by apply jsRound_eq <;> norm_num
    rw [pickColor001, if_pos (by rfl)]
    simp only [hsx, hsy]
    show sample5 vid2 (-2) (-2) = ⟨4, 7, 11⟩
    rw [sample5]
    simp only [window25, List.range_succ, List.range_zero]
    norm_num [getPixel, vid2, hr, hg, hb]
    decide
  · have h10 : jsRound ((10 : ℚ)) = 10 := by apply jsRound_eq <;> norm_num
    have h20 : jsRound ((20 : ℚ)) = 20 := by apply jsRound_eq <;> norm_num
    have h30 : jsRound ((30 : ℚ)) = 30 := by apply jsRound_eq <;> norm_num
    rw [clampedMean5]
    simp only [List.range_succ, List.range_zero]
    norm_num [vid2, h10, h20, h30]
    decide

/-- C2 (amended): the 5x5 neighborhood request at an edge never
reads the frame buffer out of bounds -- the sample depends only on
the in-bounds pixels (out-of-window positions contribute the
canvas's transparent-black padding) -- and the per-channel mean is
taken over all 25 window positions including that padding; the
result is still a well-formed color (channels at most 255 whenever
the frame's are). -/
theorem c2_amended :
    (∀ (v : Video) (g : Nat → Nat → RGB) (sx sy : ℤ),
      (∀ x y, x < v.videoWidth → y < v.videoHeight → v.frame x y = g x y) →
      sample5 v sx sy = sample5 { v with frame := g } sx sy)
    ∧ (∀ (v : Video) (sx sy : ℤ),
      (∀ x y, (v.frame x y).r ≤ 255 ∧ (v.frame x y).g ≤ 255 ∧ (v.frame x y).b ≤ 255) →
      (sample5 v sx sy).r ≤ 255 ∧ (sample5 v sx sy).g ≤ 255 ∧ (sample5 v sx sy).b ≤ 255) := by
  constructor
  · intro v g sx sy h
    rw [sample5, sample5, window25_frame_congr v g sx sy h]
  · intro v sx sy hf
    have hmem := mem_window25_le v hf sx sy
    exact ⟨channel_le (window25 v sx sy) (window25_length v sx sy) (fun p => p.r)
        (fun p hp => (hmem p hp).1),
      channel_le (window25 v sx sy) (window25_length v sx sy) (fun p => p.g)
        (fun p hp => (hmem p hp).2.1),
      channel_le (window25 v sx sy) (window25_length v sx sy) (fun p => p.b)
        (fun p hp => (hmem p hp).2.2)⟩

/-- C2 witness: the amended theorem applied to the concrete video
`vid2` and the corner window. -/
theorem c2_witness :
    sample5 vid2 (-2) (-2) = sample5 { vid2 with frame := fun _ _ => ⟨10, 20, 30⟩ } (-2) (-2)
    ∧ (sample5 vid2 (-2) (-2)).r ≤ 255 ∧ (sample5 vid2 (-2) (-2)).g ≤ 255
    ∧ (sample5 vid2 (-2) (-2)).b ≤ 255 := by
  have hwf : ∀ x y : Nat, (vid2.frame x y).r ≤ 255 ∧ (vid2.frame x y).g ≤ 255
      ∧ (vid2.frame x y).b ≤ 255 := fun _ _ => by norm_num [vid2]
  refine ⟨c2_amended.1 vid2 (fun _ _ => ⟨10, 20, 30⟩) (-2) (-2) (fun x y _ _ => rfl), ?_, ?_, ?_⟩
  · exact (c2_amended.2 vid2 (-2) (-2) hwf).1
  · exact (c2_amended.2 vid2 (-2) (-2) hwf).2.1
  · exact (c2_amended.2 vid2 (-2) (-2) hwf).2.2

theorem isPaint_wallNorth : isPaintPage 0 wallNorth = true := by
  simp only [isPaintPage, wallNorth]
  norm_num
  decide

theorem isPaint_wallSouth : isPaintPage 0 wallSouth = true := by
  simp only [isPaintPage, wallSouth]
  norm_num
  decide

theorem isPaint_ceiling : isPaintPage 0 ceilingNode = true := by
  simp only [isPaintPage, ceilingNode]
  norm_num
  decide

theorem isPaint_floorMain : isPaintPage 0 floorMain = false := by decide

theorem isPaint_sofa01 : isPaintPage 0 sofa01 = false := by
  simp only [isPaintPage, sofa01]
  norm_num
  decide

/-- C3: the claim asserts classification marks exactly Wall_North
paintable on the four-node model.  The classifier of
src/app/page.tsx (first variant) has no ceiling/roof rule: with the
floor at bounding-box bottom and the ceiling 3 units above it, it
marks both Wall_North and Ceiling paintable. -/
theorem c3_counterexample :
    ((scene4.filter fun m => isPaintPage 0 m).map fun m => m.name) = ["Wall_North", "Ceiling"]
    ∧ (["Wall_North", "Ceiling"] : List String) ≠ ["Wall_North"] := by
  constructor
  · have h : scene4.filter (fun m => isPaintPage 0 m) = [wallNorth, ceilingNode] := by
      simp [scene4, List.filter_cons, isPaint_wallNorth, isPaint_ceiling, isPaint_floorMain,
        isPaint_sofa01]
    rw [h]
    decide
  · decide

/-- C3 (amended): under the part_000 classifier (which is the cited
variant carrying the full exclusion vocabulary) the partition is
exactly as claimed: Wall_North alone is paintable, the other three
are excluded and keep their original material references after
installation, and applying #336699 afterwards changes only the
wall material's slot of the material store, converted once to
linear space.  Under the page.tsx first-variant classifier the
Ceiling node is paintable (see the counterexample). -/
theorem c3_amended :
    ((scene4.filter fun m => !(isExcluded000 m.name)).map fun m => m.name) = ["Wall_North"]
    ∧ ((scene4.filter fun m => isExcluded000 m.name).map fun m => m.name)
        = ["Floor_Main", "Sofa_01", "Ceiling"]
    ∧ (install000 5 scene4).map (fun m => m.matId) = [5, 2, 3, 4]
    ∧ (∀ store : Nat → TColor,
        (setMat store 5 (convertSRGBToLinear (setFromHex ⟨51, 102, 153⟩))) 2 = store 2
        ∧ (setMat store 5 (convertSRGBToLinear (setFromHex ⟨51, 102, 153⟩))) 3 = store 3
        ∧ (setMat store 5 (convertSRGBToLinear (setFromHex ⟨51, 102, 153⟩))) 4 = store 4
        ∧ (setMat store 5 (convertSRGBToLinear (setFromHex ⟨51, 102, 153⟩))) 5
            = ⟨1, 51 / 255, 102 / 255, 153 / 255⟩) := by
  refine ⟨by decide, by decide, by decide, ?_⟩
  intro store
  refine ⟨by simp [setMat], by simp [setMat], by simp [setMat], ?_⟩
  norm_num [setMat, convertSRGBToLinear, setFromHex]

/-- C5: the claim says no material instance is shared between two
distinct paintable nodes.  The part_000 (second variant) classifier
assigns the single shared `wallMaterial` to every paintable node:
on two distinct wall nodes both end up referencing material 7. -/
theorem c5_counterexample :
    ((install000 7 twoWalls).map fun m => m.matId) = [7, 7]
    ∧ (install000 7 twoWalls).get? 0 ≠ (install000 7 twoWalls).get? 1
    ∧ isExcluded000 wallNorth.name = false
    ∧ isExcluded000 wallSouth.name = false := by
  refine ⟨by decide, by decide, by decide, by decide⟩

theorem installPage_paint_ge (minY : ℚ) :
    ∀ (base : Nat) (ms : List MeshNode) (x : MeshNode),
      x ∈ installPage minY base ms → isPaintPage minY x = true → base ≤ x.matId := by
  intro base ms
  induction ms generalizing base with
  | nil => intro x hx; cases hx
  | cons m t ih =>
    intro x hx hp
    rw [installPage] at hx
    rcases List.mem_cons.mp hx with h | h
    · by_cases hm : isPaintPage minY m = true
      · rw [if_pos hm] at h
        subst h
        exact Nat.le_refl base
      · rw [if_neg hm] at h
        subst h
        exact absurd hp hm
    · have h1 := ih (base + 1) x h hp
      omega

theorem installPage_pairwise (minY : ℚ) :
    ∀ (base : Nat) (ms : List MeshNode),
      List.Pairwise (fun a b => isPaintPage minY a = true → isPaintPage minY b = true →
        a.matId ≠ b.matId) (installPage minY base ms) := by
  intro base ms
  induction ms generalizing base with
  | nil => exact List.Pairwise.nil
  | cons m t ih =>
    rw [installPage]
    refine List.Pairwise.cons ?_ (ih (base + 1))
    intro b hb hpa hpb
    by_cases hm : isPaintPage minY m = true
    · rw [if_pos hm]
      have hble := installPage_paint_ge minY (base + 1) t b hb hpb
      show base ≠ b.matId
      omega
    · rw [if_neg hm] at hpa
      exact absurd hpa hm

theorem installPage_excluded_keep (minY : ℚ) :
    ∀ (base : Nat) (ms : List MeshNode),
      List.Forall₂ (fun o n => isPaintPage minY o = false → n = o) ms (installPage minY base ms) := by
  intro base ms
  induction ms generalizing base with
  | nil => exact List.Forall₂.nil
  | cons m t ih =>
    rw [installPage]
    refine List.Forall₂.cons ?_ (ih (base + 1))
    intro ho
    rw [if_neg (by simp [ho])]

theorem install000_excluded_keep :
    ∀ (w : Nat) (ms : List MeshNode),
      List.Forall₂ (fun o n => isExcluded000 o.name = true → n = o) ms (install000 w ms) := by
  intro w ms
  induction ms with
  | nil => exact List.Forall₂.nil
  | cons m t ih =>
    rw [install000, List.map_cons]
    refine List.Forall₂.cons ?_ ih
    intro ho
    rw [if_pos ho]

/-- C5 (amended): the page.tsx classifier clones a fresh material
per paintable node, so any two paintable nodes of the installed
scene reference distinct material instances, and every excluded
node keeps its original material; the part_000 variant also leaves
excluded nodes untouched but shares one instance across all
paintable nodes (see the counterexample). -/
theorem c5_amended :
    ∀ (minY : ℚ) (base : Nat) (ms : List MeshNode),
      List.Pairwise (fun a b => isPaintPage minY a = true → isPaintPage minY b = true →
        a.matId ≠ b.matId) (installPage minY base ms)
      ∧ List.Forall₂ (fun o n => isPaintPage minY o = false → n = o) ms (installPage minY base ms)
      ∧ (∀ w : Nat,
          List.Forall₂ (fun o n => isExcluded000 o.name = true → n = o) ms (install000 w ms)) :=
  fun minY base ms => ⟨installPage_pairwise minY base ms, installPage_excluded_keep minY base ms,
    fun w => install000_excluded_keep w ms⟩

/-- C5 witness: the amended theorem applied to the two-wall scene;
the two cloned wall materials carry the distinct identities 10 and
11. -/
theorem c5_witness :
    ((installPage 0 10 twoWalls).map fun m => m.matId) = [10, 11]
    ∧ List.Pairwise (fun a b => isPaintPage 0 a = true → isPaintPage 0 b = true →
        a.matId ≠ b.matId) (installPage 0 10 twoWalls) := by
  constructor
  · have h : installPage 0 10 twoWalls
        = [{ wallNorth with matId := 10 }, { wallSouth with matId := 11 }] := by
      simp [twoWalls, installPage, isPaint_wallNorth, isPaint_wallSouth]
    rw [h]
    decide
  · exact (c5_amended 0 10 twoWalls).1

end ElghalyVR
